import Mathlib

/-!
# Verification of the `cachy` disk-backed memoization library

Shallow embedding of `src/cachy/data.py`.  Timestamps are modelled as `Int`
seconds (Python `datetime` instants); the filesystem state relevant to one
cache key is the pair of optional files (entry, failure sentinel), each
carrying a modification time and a content.  The injected collaborator
callables (`download_f`, `save_f`, `read_f`) are modelled by the outcome
each would produce on this call (`Except ε α` for fallible calls), and the
effect of `save_f` on the entry file is modelled by an encoding function,
matching the default `pickle_save` which writes only to the entry path.

Python's `datetime.now()` is sampled twice in `Cachedf.__call__` (once for
the synthetic last-fetch of a missing entry, once for the expiry check), so
the model takes two instants `now1 ≤ now2`.

The sentinel content is written as `now.isoformat()`; since the content is
write-only bookkeeping (never parsed back), the model stores the instant
itself in place of its ISO-8601 rendering.
-/

namespace Cachy

/-- Filesystem state for one cache key: the optional entry file `fn`
(modification time, content of type `β`) and the optional failure sentinel
`fn + ".fail"` (modification time, content = the instant whose ISO-8601
rendering was written). -/
structure FS (β : Type) where
  entry : Option (Int × β)
  sentinel : Option (Int × Int)
deriving Repr, DecidableEq

/-- The immutable policy configuration of a `Cachedf` instance
(constructor parameters of `Cachedf.__init__`). -/
structure Config where
  expire_time_secs : Int
  only_cached : Bool
  force_reload : Bool
  cache_failure : Bool
  use_stale_on_failure : Bool
deriving Repr, DecidableEq

/-- `last_fetch` as computed by `Cachedf.__call__` (data.py lines 77-89):
the entry's mtime, or the synthetic `now - (expire + 1)` when the entry is
missing; when the sentinel exists, the max of its mtime and that value.
`now1` is the instant of the `datetime.now()` call in the missing-entry
branch. -/
def lastFetch (fs : FS β) (expire : Int) (now1 : Int) : Int :=
  let lf : Int :=
    match fs.entry with
    | some e => e.1
    | none => now1 - (expire + 1)
  match fs.sentinel with
  | some s => max s.1 lf
  | none => lf

/-- `file_expired` (data.py line 92): `now - last_fetch > timedelta(seconds
= expire_time_secs)`.  `now2` is the instant of the `datetime.now()` call
on line 91. -/
def fileExpired (fs : FS β) (expire now1 now2 : Int) : Bool :=
  decide (now2 - lastFetch fs expire now1 > expire)

/-- The fetch decision of `Cachedf.__call__` (data.py lines 94-105):
`expired_file or no_file or self.force_reload` where
`expired_file = (file_exists or fail_file_exists) and file_expired and not
self.only_cached`. -/
def shouldFetch (cfg : Config) (fs : FS β) (now1 now2 : Int) : Bool :=
  let file_exists := fs.entry.isSome
  let fail_file_exists := fs.sentinel.isSome
  let file_expired := fileExpired fs cfg.expire_time_secs now1 now2
  let no_file := !file_exists
  let expired_file := (file_exists || fail_file_exists) && file_expired && !cfg.only_cached
  expired_file || no_file || cfg.force_reload

/-- Modelled from the spec (§4.2 step 5), for comparison with `shouldFetch`:
`force_reload OR (not entry_exists AND not sentinel_exists) OR
((entry_exists OR sentinel_exists) AND expired AND NOT only_cached)`. -/
def specShouldFetch (cfg : Config) (fs : FS β) (now1 now2 : Int) : Bool :=
  cfg.force_reload
    || (!fs.entry.isSome && !fs.sentinel.isSome)
    || ((fs.entry.isSome || fs.sentinel.isSome)
          && fileExpired fs cfg.expire_time_secs now1 now2
          && !cfg.only_cached)

/-- The internal `file_expired` computation of `need_to_download`
(data.py lines 11-19): entry mtime, or synthetic `now - (expire + 1)` when
missing; expired iff `now - last_fetch > expire`. -/
def need_to_download_expired (entry : Option Int) (expire now1 now2 : Int) : Bool :=
  let last_fetch : Int :=
    match entry with
    | some m => m
    | none => now1 - (expire + 1)
  decide (now2 - last_fetch > expire)

/-- `need_to_download` (data.py lines 10-20):
`(file_expired and not only_cached) or not file_exists or force_reload`. -/
def need_to_download (entry : Option Int) (expire : Int)
    (force_reload only_cached : Bool) (now1 now2 : Int) : Bool :=
  (need_to_download_expired entry expire now1 now2 && !only_cached)
    || !entry.isSome || force_reload

/-- Result of one `Cachedf.__call__`: the returned value or propagated
error, the filesystem state afterwards, and whether `download_f` was
invoked. -/
structure CallOut (ε α β : Type) where
  result : Except ε α
  fs : FS β
  downloaded : Bool

/-- `Cachedf.__call__` (data.py lines 67-127).  `dl` is the outcome
`download_f(*fargs, **kwargs)` would produce, `saveErr` the error
`save_f(fn, r)` would raise (or `none` for success), `rd` the outcome
`read_f(fn)` would produce.  On a successful fetch-and-persist the entry
file holds `enc r` with mtime `now2` (the model does not track partial
writes by a failing `save_f`).  The sentinel written on failure gets mtime
`now2` and content `now2` (standing for `now.isoformat()`). -/
def cachedfCall (cfg : Config) (enc : α → β) (fs : FS β) (now1 now2 : Int)
    (dl : Except ε α) (saveErr : Option ε) (rd : Except ε α) : CallOut ε α β :=
  if shouldFetch cfg fs now1 now2 then
    -- `no_file` is computed from the state at the start of the call (line 94)
    let no_file := !fs.entry.isSome
    -- the `except Exception as e` handler (lines 110-124), shared by
    -- `download_f` and `save_f` failures
    let onFailure : ε → CallOut ε α β := fun e =>
      let fs1 := if cfg.cache_failure then { fs with sentinel := some (now2, now2) } else fs
      if !cfg.use_stale_on_failure then ⟨.error e, fs1, true⟩
      else if no_file then ⟨.error e, fs1, true⟩
      else ⟨rd, fs1, true⟩
    match dl with
    | .error e => onFailure e
    | .ok r =>
      match saveErr with
      | some e => onFailure e
      | none => ⟨.ok r, { fs with entry := some (now2, enc r) }, true⟩
  else
    ⟨rd, fs, false⟩

/-- The mutable state of a `Throttledf` instance (data.py lines 129-140):
call counter `cc` (starts at 0), configuration, and whether the optional
`on_throttle` callback has been set. -/
structure Throttledf where
  cc : Nat
  calls : Nat
  wait_secs : Int
  interval_secs : Int
  has_on_throttle : Bool
deriving Repr, DecidableEq

/-- Observable outcome of one `Throttledf.__call__`. -/
structure ThrottleOut (ε α : Type) where
  paused : Bool
  callback_invoked : Bool
  f_invoked : Bool
  result : Except ε α
  st : Throttledf

/-- `Throttledf.__call__` (data.py lines 142-157): if
`(cc + 1) % (calls + 1) == 0` the callback (when set) fires and the call
sleeps `wait_secs`; then `f` is always invoked, `cc` is incremented whether
or not `f` raised, and an error from `f` is re-raised after the increment.
`fres` is the outcome `f(*args, **kwargs)` would produce. -/
def throttledfCall (t : Throttledf) (fres : Except ε α) : ThrottleOut ε α :=
  let throttled := (t.cc + 1) % (t.calls + 1) == 0
  { paused := throttled
    callback_invoked := throttled && t.has_on_throttle
    f_invoked := true
    result := fres
    st := { t with cc := t.cc + 1 } }

/-- State of a `Throttledf` after `n` successive invocations, where the
`k`-th invocation's wrapped call produces `fres k`. -/
def throttleIter (t : Throttledf) (fres : Nat → Except ε α) : Nat → Throttledf
  | 0 => t
  | n + 1 => (throttledfCall (throttleIter t fres n) (fres n)).st

theorem throttleIter_cc (t : Throttledf) (fres : Nat → Except ε α) (n : Nat) :
    (throttleIter t fres n).cc = t.cc + n := by
  induction n with
  | zero => rfl
  | succ n ih => simp [throttleIter, throttledfCall, ih]; omega

theorem throttleIter_calls (t : Throttledf) (fres : Nat → Except ε α) (n : Nat) :
    (throttleIter t fres n).calls = t.calls := by
  induction n with
  | zero => rfl
  | succ n ih => simp [throttleIter, throttledfCall, ih]

/-- Python runtime errors relevant to `Cachy.build`. -/
inductive PyError where
  | typeError
  | nameError
deriving Repr, DecidableEq

/-- The parameter names of `Cachy.build` (data.py line 30) — the method is
defined without an instance (`self`) parameter. -/
def cachyBuildParams : List String := ["download_f", "save_f", "read_f"]

/-- `Cachy.build` invoked on a `Cachy` instance with `numArgs` explicit
arguments, following Python call semantics: the receiver is prepended to
the argument list; if the count does not match the three parameters a
`TypeError` is raised; otherwise the body (data.py line 31) evaluates the
free name `self`, which is not bound in the method's scope, raising a
`NameError` before any `Cachedf` is constructed. -/
def cachyBuildCall (numArgs : Nat) : Except PyError Unit :=
  if numArgs + 1 ≠ cachyBuildParams.length then .error .typeError
  else if cachyBuildParams.contains "self" then .ok ()
  else .error .nameError

/-- Modelled from the spec: the universe of serializable Python values
handled by the default serialization helpers (§4.4 "generic binary object
serialization format", §8.3 "representative data shapes (scalar, nested
mapping, sequence)").  The `pickle` module itself is outside this
repository; nested sequences cover the nesting the spec requires, with
mappings representable as sequences of two-element sequences. -/
inductive PyVal where
  | pyNone : PyVal
  | pyBool : Bool → PyVal
  | pyInt : Int → PyVal
  | pyStr : String → PyVal
  | pyList : List PyVal → PyVal
deriving Repr

mutual

/-- Modelled from the spec: `pickle.dump`, a total injective byte
serialization of `PyVal` (tag-prefixed; lists are delimited by an end
marker token 5, which no value's encoding starts with). -/
def pickleDump : PyVal → List Nat
  | .pyNone => [0]
  | .pyBool b => [1, if b then 1 else 0]
  | .pyInt n => [2, if n < 0 then 1 else 0, n.natAbs]
  | .pyStr s => 3 :: s.length :: s.data.map Char.toNat
  | .pyList xs => 4 :: pickleDumpList xs ++ [5]

/-- Concatenated encodings of a list of values. -/
def pickleDumpList : List PyVal → List Nat
  | [] => []
  | v :: vs => pickleDump v ++ pickleDumpList vs

end

mutual

/-- Modelled from the spec: the decoder half of `pickle` (`pickle.load`'s
parsing), fuel-indexed; returns the decoded value and the unconsumed
remainder. -/
def pickleDecode : Nat → List Nat → Option (PyVal × List Nat)
  | 0, _ => none
  | f + 1, bs =>
    match bs with
    | 0 :: rest => some (.pyNone, rest)
    | 1 :: b :: rest => some (.pyBool (b == 1), rest)
    | 2 :: s :: m :: rest =>
        some (.pyInt (if s == 1 then -(m : Int) else (m : Int)), rest)
    | 3 :: len :: rest =>
        if len ≤ rest.length then
          some (.pyStr ⟨(rest.take len).map Char.ofNat⟩, rest.drop len)
        else none
    | 4 :: rest => (pickleDecodeItems f rest).map fun p => (.pyList p.1, p.2)
    | _ => none

/-- Decodes successive values until the end marker token 5. -/
def pickleDecodeItems : Nat → List Nat → Option (List PyVal × List Nat)
  | 0, _ => none
  | _ + 1, [] => none
  | f + 1, t :: ts =>
    if t = 5 then some (([] : List PyVal), ts)
    else
      (pickleDecode f (t :: ts)).bind fun p =>
        (pickleDecodeItems f p.2).map fun q => (p.1 :: q.1, q.2)

end

/-- `pickle.load` on a full byte string: decode one value and require the
input to be fully consumed. -/
def pickleLoad (bs : List Nat) : Option PyVal :=
  match pickleDecode (bs.length + 1) bs with
  | some (v, []) => some v
  | _ => none

/-- The filesystem seen by the serialization helpers: file contents by
path. -/
def PickleFS : Type := String → Option (List Nat)

/-- `pickle_save` (data.py lines 164-166): `open(fn, "wb")` truncates any
existing file at `fn`, then the serialized bytes of `data` are written. -/
def pickle_save (fn : String) (data : PyVal) (fsys : PickleFS) : PickleFS :=
  fun p => if p = fn then some (pickleDump data) else fsys p

/-- `pickle_read` (data.py lines 168-170): read the file at `fn` and
deserialize its content; `none` models the raised error when the file is
missing or its content does not deserialize. -/
def pickle_read (fn : String) (fsys : PickleFS) : Option PyVal :=
  (fsys fn).bind pickleLoad

theorem pickleDump_head (v : PyVal) :
    ∃ t ts, pickleDump v = t :: ts ∧ t < 5 := by
  cases v with
  | pyNone => exact ⟨0, _, rfl, by omega⟩
  | pyBool b => exact ⟨1, _, rfl, by omega⟩
  | pyInt n => exact ⟨2, _, rfl, by omega⟩
  | pyStr s => exact ⟨3, _, rfl, by omega⟩
  | pyList xs => exact ⟨4, _, rfl, by omega⟩

theorem pickleDecodeItems_dumpList_aux (vs : List PyVal)
    (IH : ∀ v ∈ vs, ∀ (f : Nat) (rest : List Nat),
      (pickleDump v).length ≤ f →
        pickleDecode f (pickleDump v ++ rest) = some (v, rest)) :
    ∀ (f : Nat) (rest : List Nat), (pickleDumpList vs).length + 1 ≤ f →
      pickleDecodeItems f (pickleDumpList vs ++ 5 :: rest) = some (vs, rest) := by
  induction vs with
  | nil =>
      intro f rest hf
      match f, hf with
      | g + 1, _ => simp [pickleDumpList, pickleDecodeItems]
  | cons v vs ih =>
      intro f rest hf
      simp only [pickleDumpList, List.length_append] at hf
      obtain ⟨g, rfl⟩ : ∃ g, f = g + 1 := ⟨f - 1, by omega⟩
      · obtain ⟨t, ts, hdump, ht⟩ := pickleDump_head v
        have hlen : (pickleDump v).length = ts.length + 1 := by
          rw [hdump]; rfl
        have hbs : pickleDumpList (v :: vs) ++ 5 :: rest
            = t :: (ts ++ (pickleDumpList vs ++ 5 :: rest)) := by
          simp [pickleDumpList, hdump]
        rw [hbs, pickleDecodeItems, if_neg (by omega)]
        have hdec : pickleDecode g (pickleDump v ++ (pickleDumpList vs ++ 5 :: rest))
            = some (v, pickleDumpList vs ++ 5 :: rest) := by
          apply IH v (by simp) g _ (by omega)
        rw [hdump] at hdec
        simp only [List.cons_append] at hdec
        rw [hdec]
        simp only [Option.some_bind]
        rw [ih (fun w hw => IH w (by simp [hw])) g _ (by omega)]
        rfl

theorem pickleDecode_dump_aux :
    ∀ (k : Nat) (v : PyVal), sizeOf v ≤ k →
      ∀ (f : Nat) (rest : List Nat), (pickleDump v).length ≤ f →
        pickleDecode f (pickleDump v ++ rest) = some (v, rest) := by
  intro k
  induction k using Nat.strong_induction_on with
  | _ k IH =>
    intro v hv f rest hf
    cases v with
    | pyNone =>
        obtain ⟨g, rfl⟩ : ∃ g, f = g + 1 :=
          ⟨f - 1, by simp [pickleDump] at hf; omega⟩
        simp [pickleDump, pickleDecode]
    | pyBool b =>
        obtain ⟨g, rfl⟩ : ∃ g, f = g + 1 :=
          ⟨f - 1, by simp [pickleDump] at hf; omega⟩
        cases b <;> simp [pickleDump, pickleDecode]
    | pyInt n =>
        obtain ⟨g, rfl⟩ : ∃ g, f = g + 1 :=
          ⟨f - 1, by simp [pickleDump] at hf; omega⟩
        have hval : (if ((if n < 0 then (1 : Nat) else 0) == 1)
            then -(n.natAbs : Int) else (n.natAbs : Int)) = n := by
          by_cases hn : n < 0
          · rw [if_pos hn]
            rw [if_pos (show ((1 : Nat) == 1) = true from rfl)]
            omega
          · rw [if_neg hn]
            rw [if_neg (show ¬((0 : Nat) == 1) = true from by decide)]
            omega
        simp only [pickleDump, List.cons_append, pickleDecode]
        rw [hval]
        rfl
    | pyStr s =>
        obtain ⟨g, rfl⟩ : ∃ g, f = g + 1 :=
          ⟨f - 1, by simp [pickleDump] at hf; omega⟩
        have hdl : s.data.length = s.length := rfl
        have h1 : (List.map Char.toNat s.data ++ rest).take s.length
            = List.map Char.toNat s.data :=
          List.take_left' (by rw [List.length_map, hdl])
        have h2 : (List.map Char.toNat s.data ++ rest).drop s.length
            = rest := List.drop_left' (by rw [List.length_map, hdl])
        have h3 : s.length ≤ (List.map Char.toNat s.data ++ rest).length := by
          rw [List.length_append, List.length_map, hdl]
          omega
        have hmap : ∀ l : List Char, List.map (Char.ofNat ∘ Char.toNat) l = l := by
          intro l
          induction l with
          | nil => rfl
          | cons c cs ih => simp [ih, Char.ofNat_toNat]
        simp [pickleDump, pickleDecode, h1, h2, h3, List.map_map, hmap]
    | pyList xs =>
        obtain ⟨g, rfl⟩ : ∃ g, f = g + 1 :=
          ⟨f - 1, by simp [pickleDump] at hf; omega⟩
        have hmem : ∀ v ∈ xs, ∀ (f' : Nat) (rest' : List Nat),
            (pickleDump v).length ≤ f' →
              pickleDecode f' (pickleDump v ++ rest') = some (v, rest') := by
          intro w hw f' rest' hf'
          have hs : sizeOf w < sizeOf (PyVal.pyList xs) := by
            have := List.sizeOf_lt_of_mem hw
            simp only [PyVal.pyList.sizeOf_spec]
            omega
          exact IH (sizeOf w) (by omega) w le_rfl f' rest' hf'
        have hbound : (pickleDumpList xs).length + 1 ≤ g := by
          simp [pickleDump] at hf
          omega
        have hitems := pickleDecodeItems_dumpList_aux xs hmem g rest hbound
        have hshape : pickleDump (.pyList xs) ++ rest
            = 4 :: (pickleDumpList xs ++ 5 :: rest) := by
          simp [pickleDump]
        rw [hshape]
        simp [pickleDecode, hitems]

theorem pickleLoad_dump (v : PyVal) : pickleLoad (pickleDump v) = some v := by
  have h := pickleDecode_dump_aux (sizeOf v) v le_rfl
    ((pickleDump v).length + 1) [] (by omega)
  simp only [List.append_nil] at h
  simp [pickleLoad, h]

theorem cachedfCall_downloaded (cfg : Config) (enc : α → β) (fs : FS β)
    (now1 now2 : Int) (dl : Except ε α) (saveErr : Option ε) (rd : Except ε α) :
    (cachedfCall cfg enc fs now1 now2 dl saveErr rd).downloaded
      = shouldFetch cfg fs now1 now2 := by
  unfold cachedfCall
  cases h : shouldFetch cfg fs now1 now2 with
  | false => simp [h]
  | true =>
      simp only [h, if_true]
      cases dl with
      | error e => split_ifs <;> rfl
      | ok r => cases saveErr with
        | some e => split_ifs <;> rfl
        | none => rfl

/-- C6: with `force_reload = true`, every call to the cached invocation
invokes the fetch function, regardless of entry or sentinel existence,
their freshness, and the `only_cached` flag. -/
theorem C6_force_reload_always_fetches (ε α β : Type) (enc : α → β)
    (expire : Int) (oc cf us : Bool) (fs : FS β) (now1 now2 : Int)
    (dl : Except ε α) (saveErr : Option ε) (rd : Except ε α) :
    (cachedfCall (⟨expire, oc, true, cf, us⟩ : Config)
        enc fs now1 now2 dl saveErr rd).downloaded = true := by
  rw [cachedfCall_downloaded]
  simp [shouldFetch]

/-- C1: the claim's decision formula (`specShouldFetch`, step 5 of the
spec) disagrees with the code's decision (`shouldFetch`, data.py line 105)
at the claim's own distinguished input: entry file missing, fresh
(non-expired) sentinel present, `force_reload` false — the code fetches
(its branch condition uses `no_file` alone), the claim says no fetch. -/
theorem C1_failing_input_eval :
    shouldFetch (⟨100, false, false, true, false⟩ : Config)
        (⟨none, some (1000, 1000)⟩ : FS Unit) 1000 1000 = true
      ∧ specShouldFetch (⟨100, false, false, true, false⟩ : Config)
        (⟨none, some (1000, 1000)⟩ : FS Unit) 1000 1000 = false
      ∧ (cachedfCall (⟨100, false, false, true, false⟩ : Config)
          (fun r : Unit => r) (⟨none, some (1000, 1000)⟩ : FS Unit) 1000 1000
          (.ok ()) (none : Option Unit) (.ok ())).downloaded = true := by
  refine ⟨by decide, by decide, ?_⟩
  rw [cachedfCall_downloaded]
  decide

/-- C5: a missing entry (no sentinel) is treated as expired via the
synthetic last-modified `now - expiry - 1`; an existing entry (no
sentinel) is expired iff `now - mtime > expiry`; when both entry and
sentinel exist the effective last-fetch timestamp is the max of their
mtimes; `need_to_download` uses the same synthetic value for a missing
file. -/
theorem C5_expiry_computation (β : Type) :
    (∀ expire now1 now2 : Int, now1 ≤ now2 →
        lastFetch (⟨none, none⟩ : FS β) expire now1 = now1 - expire - 1
          ∧ fileExpired (⟨none, none⟩ : FS β) expire now1 now2 = true)
      ∧ (∀ (m : Int) (c : β) (expire now1 now2 : Int),
          fileExpired (⟨some (m, c), none⟩ : FS β) expire now1 now2 = true
            ↔ now2 - m > expire)
      ∧ (∀ (m : Int) (c : β) (ms cs expire now1 : Int),
          lastFetch (⟨some (m, c), some (ms, cs)⟩ : FS β) expire now1 = max m ms)
      ∧ (∀ expire now1 now2 : Int, now1 ≤ now2 →
          need_to_download_expired none expire now1 now2 = true) := by
  refine ⟨?_, ?_, ?_, ?_⟩
  · intro expire now1 now2 h
    constructor
    · simp [lastFetch]
      ring
    · simp [fileExpired, lastFetch]
      omega
  · intro m c expire now1 now2
    simp [fileExpired, lastFetch]
  · intro m c ms cs expire now1
    simp [lastFetch, max_comm]
  · intro expire now1 now2 h
    simp [need_to_download_expired]
    omega

theorem C5_expiry_computation_witness :
    fileExpired (⟨none, none⟩ : FS Unit) 100 50 60 = true
      ∧ lastFetch (⟨some (7, ()), some (20, 5)⟩ : FS Unit) 100 0 = max 7 20
      ∧ need_to_download_expired none 100 50 60 = true :=
  ⟨((C5_expiry_computation Unit).1 100 50 60 (by norm_num)).2,
    (C5_expiry_computation Unit).2.2.1 7 () 20 5 100 0,
    (C5_expiry_computation Unit).2.2.2 100 50 60 (by norm_num)⟩

/-- C3: when a fetch is attempted and the fetch function raises: with
use_stale_on_failure disabled the original error propagates; with it
enabled but no entry file at the start of the call the original error
propagates; with it enabled and an entry present the call returns the
result of the read function on the entry path and the fetch error is
suppressed. -/
theorem C3_fetch_error_handling (ε α β : Type) (cfg : Config) (enc : α → β)
    (fs : FS β) (now1 now2 : Int) (e : ε) (saveErr : Option ε)
    (rd : Except ε α) (hsf : shouldFetch cfg fs now1 now2 = true) :
    (cfg.use_stale_on_failure = false →
        (cachedfCall cfg enc fs now1 now2 (.error e) saveErr rd).result = .error e)
      ∧ (cfg.use_stale_on_failure = true → fs.entry = none →
        (cachedfCall cfg enc fs now1 now2 (.error e) saveErr rd).result = .error e)
      ∧ (cfg.use_stale_on_failure = true → fs.entry.isSome = true →
        (cachedfCall cfg enc fs now1 now2 (.error e) saveErr rd).result = rd) := by
  unfold cachedfCall
  rw [if_pos hsf]
  refine ⟨?_, ?_, ?_⟩
  · intro hus
    simp [hus]
  · intro hus hentry
    simp [hus, hentry]
  · intro hus hentry
    simp [hus, hentry]

theorem C3_fetch_error_handling_witness :
    shouldFetch (⟨100, false, false, true, true⟩ : Config)
        (⟨some (0, "OLD"), none⟩ : FS String) 1000 1000 = true
      ∧ (cachedfCall (⟨100, false, false, true, true⟩ : Config)
          (fun r : String => r) (⟨some (0, "OLD"), none⟩ : FS String) 1000 1000
          (.error "boom") (none : Option String)
          (.ok "OLD")).result = .ok "OLD" :=
  ⟨by decide,
    (C3_fetch_error_handling String String String ⟨100, false, false, true, true⟩
      (fun r => r) ⟨some (0, "OLD"), none⟩ 1000 1000 "boom" none (.ok "OLD")
      (by decide)).2.2 rfl rfl⟩

/-- C4: when a fetch is attempted and the fetch function raises, with
cache_failure enabled the sentinel file is created or overwritten with the
current time (mtime and content `now2`, the content standing for the
ISO-8601 rendering `now.isoformat()`); with cache_failure disabled the
sentinel is untouched. -/
theorem C4_sentinel_on_fetch_failure (ε α β : Type) (cfg : Config)
    (enc : α → β) (fs : FS β) (now1 now2 : Int) (e : ε) (saveErr : Option ε)
    (rd : Except ε α) (hsf : shouldFetch cfg fs now1 now2 = true) :
    (cfg.cache_failure = true →
        (cachedfCall cfg enc fs now1 now2 (.error e) saveErr rd).fs.sentinel
          = some (now2, now2))
      ∧ (cfg.cache_failure = false →
        (cachedfCall cfg enc fs now1 now2 (.error e) saveErr rd).fs
          = fs) := by
  unfold cachedfCall
  rw [if_pos hsf]
  constructor
  · intro hcf
    simp only [hcf, if_true]
    split_ifs <;> rfl
  · intro hcf
    simp only [hcf]
    split_ifs <;> simp_all

theorem C4_sentinel_on_fetch_failure_witness :
    shouldFetch (⟨100, false, false, true, false⟩ : Config)
        (⟨none, none⟩ : FS Unit) 1000 1000 = true
      ∧ (cachedfCall (⟨100, false, false, true, false⟩ : Config)
          (fun r : Unit => r) (⟨none, none⟩ : FS Unit) 1000 1000
          (.error ()) (none : Option Unit) (.error ())).fs.sentinel
        = some (1000, 1000) :=
  ⟨by decide,
    (C4_sentinel_on_fetch_failure Unit Unit Unit ⟨100, false, false, true, false⟩
      (fun r => r) ⟨none, none⟩ 1000 1000 () none (.error ())
      (by decide)).1 rfl⟩

/-- C9: when a fetch is attempted and both the fetch and the persist
succeed, the failure sentinel is neither deleted nor rewritten; the only
change to the filesystem state is the entry file written via the persist
function, and the fetched value is returned. -/
theorem C9_success_frame (ε α β : Type) (cfg : Config) (enc : α → β)
    (fs : FS β) (now1 now2 : Int) (r : α) (rd : Except ε α)
    (hsf : shouldFetch cfg fs now1 now2 = true) :
    (cachedfCall cfg enc fs now1 now2 (.ok r) (none : Option ε) rd).fs.sentinel
        = fs.sentinel
      ∧ (cachedfCall cfg enc fs now1 now2 (.ok r) (none : Option ε) rd).fs
        = { fs with entry := some (now2, enc r) }
      ∧ (cachedfCall cfg enc fs now1 now2 (.ok r) (none : Option ε) rd).result
        = .ok r := by
  unfold cachedfCall
  rw [if_pos hsf]
  exact ⟨rfl, rfl, rfl⟩

theorem C9_success_frame_witness :
    shouldFetch (⟨100, false, false, true, false⟩ : Config)
        (⟨some (0, "OLD"), some (5, 5)⟩ : FS String) 1000 1000 = true
      ∧ (cachedfCall (⟨100, false, false, true, false⟩ : Config)
          (fun r : String => r) (⟨some (0, "OLD"), some (5, 5)⟩ : FS String)
          1000 1000 (.ok "NEW") (none : Option String)
          (.ok "OLD")).fs.sentinel = some (5, 5) :=
  ⟨by decide,
    (C9_success_frame String String String ⟨100, false, false, true, false⟩
      (fun r => r) ⟨some (0, "OLD"), some (5, 5)⟩ 1000 1000 "NEW" (.ok "OLD")
      (by decide)).1.trans rfl⟩

/-- C2 counterexample: `save_f` is invoked inside the `try` block (data.py
line 109), so at this concrete input a persist failure is caught: the
sentinel is written, the stale entry is read back and returned, and the
persist error is suppressed — contradicting the claim that persist
failures never cause a sentinel write, never trigger stale fallback, and
are never suppressed. -/
theorem C2_counterexample :
    (cachedfCall (⟨100, false, false, true, true⟩ : Config)
        (fun r : String => r) (⟨some (0, "OLD"), none⟩ : FS String) 1000 1000
        (.ok "NEW") (some "disk full") (.ok "OLD")).result = .ok "OLD"
      ∧ (cachedfCall (⟨100, false, false, true, true⟩ : Config)
          (fun r : String => r) (⟨some (0, "OLD"), none⟩ : FS String) 1000 1000
          (.ok "NEW") (some "disk full") (.ok "OLD")).fs.sentinel
        = some (1000, 1000)
      ∧ (cachedfCall (⟨100, false, false, true, true⟩ : Config)
          (fun r : String => r) (⟨some (0, "OLD"), none⟩ : FS String) 1000 1000
          (.ok "NEW") (some "disk full") (.ok "OLD")).result
        ≠ .error "disk full" := by
  refine ⟨rfl, rfl, fun h => Except.noConfusion h⟩

/-- C2 amended: errors raised by the read function always propagate
uncaught (both on the cached path and inside the stale-fallback path),
while an error raised by the persist function is caught by the same
handler as a fetch error: the call then behaves exactly as if the fetch
itself had raised that error (sentinel write when cache_failure, stale
fallback when use_stale_on_failure and an entry existed, propagation
otherwise). -/
theorem C2_storage_error_handling (ε α β : Type) (cfg : Config)
    (enc : α → β) (fs : FS β) (now1 now2 : Int) (e : ε) (r : α)
    (dl : Except ε α) (saveErr saveErr' : Option ε) (rd : Except ε α) :
    (shouldFetch cfg fs now1 now2 = false →
        (cachedfCall cfg enc fs now1 now2 dl saveErr (.error e)).result = .error e)
      ∧ (shouldFetch cfg fs now1 now2 = true → cfg.use_stale_on_failure = true →
          fs.entry.isSome = true → ∀ e2 : ε,
        (cachedfCall cfg enc fs now1 now2 (.error e2) saveErr (.error e)).result
          = .error e)
      ∧ (shouldFetch cfg fs now1 now2 = true →
        cachedfCall cfg enc fs now1 now2 (.ok r) (some e) rd
          = cachedfCall cfg enc fs now1 now2 (.error e) saveErr' rd) := by
  refine ⟨?_, ?_, ?_⟩
  · intro hsf
    unfold cachedfCall
    rw [if_neg (by simp [hsf])]
  · intro hsf hus hentry e2
    unfold cachedfCall
    rw [if_pos hsf]
    simp [hus, hentry]
  · intro hsf
    unfold cachedfCall
    rw [if_pos hsf]

theorem C2_storage_error_handling_witness :
    shouldFetch (⟨100, false, false, true, true⟩ : Config)
        (⟨some (0, "OLD"), none⟩ : FS String) 1000 1000 = true
      ∧ cachedfCall (⟨100, false, false, true, true⟩ : Config)
          (fun r : String => r) (⟨some (0, "OLD"), none⟩ : FS String) 1000 1000
          (.ok "NEW") (some "disk full") (.ok "OLD")
        = cachedfCall (⟨100, false, false, true, true⟩ : Config)
          (fun r : String => r) (⟨some (0, "OLD"), none⟩ : FS String) 1000 1000
          (.error "disk full") (none : Option String) (.ok "OLD") :=
  ⟨by decide,
    (C2_storage_error_handling String String String ⟨100, false, false, true, true⟩
      (fun r => r) ⟨some (0, "OLD"), none⟩ 1000 1000 "disk full" "NEW"
      (.ok "NEW") (some "disk full") none (.ok "OLD")).2.2 (by decide)⟩

/-- C7: for the call throttle with `allowed_calls = c` and counter started
at 0, the `n`-th invocation (1-based) pauses (the optional callback
preceding the pause) iff `n % (c + 1) = 0`; the wrapped function is always
invoked; the counter increases by exactly 1 on every invocation whether or
not the wrapped function raises; and the wrapped function's outcome —
including any error, re-raised after the increment — is the call's
outcome. -/
theorem C7_throttle_behavior (ε α : Type) (t0 : Throttledf)
    (fres : Nat → Except ε α) (h0 : t0.cc = 0) (n : Nat) (hn : 1 ≤ n) :
    ((throttledfCall (throttleIter t0 fres (n - 1)) (fres (n - 1))).paused = true
        ↔ n % (t0.calls + 1) = 0)
      ∧ (throttledfCall (throttleIter t0 fres (n - 1)) (fres (n - 1))).f_invoked
        = true
      ∧ (throttledfCall (throttleIter t0 fres (n - 1)) (fres (n - 1))).st.cc
        = (throttleIter t0 fres (n - 1)).cc + 1
      ∧ (throttledfCall (throttleIter t0 fres (n - 1)) (fres (n - 1))).result
        = fres (n - 1) := by
  have hcc : (throttleIter t0 fres (n - 1)).cc = n - 1 := by
    rw [throttleIter_cc, h0]
    omega
  have hcalls : (throttleIter t0 fres (n - 1)).calls = t0.calls :=
    throttleIter_calls t0 fres (n - 1)
  refine ⟨?_, rfl, rfl, rfl⟩
  simp only [throttledfCall, hcc, hcalls, beq_iff_eq]
  have hsub : n - 1 + 1 = n := by omega
  rw [hsub]

theorem C7_throttle_behavior_witness :
    (throttledfCall
        (throttleIter (⟨0, 2, 5, 60, true⟩ : Throttledf)
          (fun _ => (Except.ok 7 : Except Unit Nat)) 2)
        ((fun _ => (Except.ok 7 : Except Unit Nat)) 2)).paused = true :=
  ((C7_throttle_behavior Unit Nat ⟨0, 2, 5, 60, true⟩
      (fun _ => Except.ok 7) rfl 3 (by omega)).1).mpr (by decide)

/-- C8: the default serialization helpers round-trip — for every
serializable value and path, `pickle_read` after `pickle_save` yields the
saved value, with `pickle_save` overwriting any existing content at the
path. -/
theorem C8_pickle_roundtrip (data : PyVal) (fn : String) (fsys : PickleFS) :
    pickle_read fn (pickle_save fn data fsys) = some data
      ∧ pickle_save fn data fsys fn = some (pickleDump data) := by
  constructor
  · simp [pickle_read, pickle_save, pickleLoad_dump]
  · simp [pickle_save]

/-- C10: every invocation of `Cachy.build` on a `Cachy` instance raises —
the receiver plus the three intended arguments never match the
three-parameter signature (`TypeError`), and any arity that does bind
evaluates the unbound name `self` (`NameError`) — so no `Cachedf` is ever
constructed. -/
theorem C10_build_always_raises :
    (∀ numArgs : Nat, ∃ err : PyError, cachyBuildCall numArgs = .error err)
      ∧ cachyBuildCall 3 = .error .typeError
      ∧ cachyBuildCall 2 = .error .nameError := by
  refine ⟨?_, rfl, rfl⟩
  intro n
  unfold cachyBuildCall
  by_cases h : n + 1 ≠ cachyBuildParams.length
  · exact ⟨.typeError, by rw [if_pos h]⟩
  · refine ⟨.nameError, ?_⟩
    rw [if_neg h]
    rfl

end Cachy
